import Mathlib

/-!
Verification development for a minimal browser rendering pipeline
(HTML tree construction, CSS tokenization, style cascade, layout tree
building, box layout and paint).

The Rust sources are embedded shallowly:
* pure functions become Lean functions;
* the mutable DOM arena of the HTML tree constructor becomes an explicit
  array-of-nodes state threaded through the functions;
* machine integers (usize, i64) become Nat (all quantities involved are
  nonnegative and no wrapping occurs on the inputs considered; the source
  uses wrapping_div / wrapping_rem on values that are provably in range);
* f64 becomes the exact rationals Rat (the CSS numeric accumulation is
  modelled exactly; rounding of f64 is far below the gaps relevant to the
  properties proved here);
* panics (assert!, expect, unimplemented!) become Option / Except with
  none / error marking the panic;
* Rust String values are modelled as Lean String or List Char; the byte
  length String::len coincides with the character count on the ASCII
  inputs this engine manipulates.
-/

namespace SabaCore

/-! ## DOM data model (src/saba_core/src/renderer/dom/element.rs, node.rs) -/

/-- ElementKind from dom/element.rs: the fixed supported tag vocabulary. -/
inductive ElementKind where
  | html
  | head
  | style
  | script
  | body
  | p
  | h1
  | h2
  | a
deriving DecidableEq, Repr

/-- ElementKind::from_str: parse a tag name, Err for unsupported tags. -/
def ElementKind.fromStr (s : String) : Option ElementKind :=
  if s = "html" then some .html
  else if s = "head" then some .head
  else if s = "style" then some .style
  else if s = "script" then some .script
  else if s = "body" then some .body
  else if s = "p" then some .p
  else if s = "h1" then some .h1
  else if s = "h2" then some .h2
  else if s = "a" then some .a
  else none

/-- Display for ElementKind: the tag name string. -/
def ElementKind.toStr : ElementKind → String
  | .html => "html"
  | .head => "head"
  | .style => "style"
  | .script => "script"
  | .body => "body"
  | .h1 => "h1"
  | .h2 => "h2"
  | .p => "p"
  | .a => "a"

/-- Modelled from the spec: html/attribute.rs is not under src/.  Per the
data model section an attribute is a name/value pair of strings. -/
structure Attribute where
  name : String
  value : String
deriving DecidableEq, Repr

/-- Element from dom/element.rs: a tag kind plus an attribute list. -/
structure Element where
  kind : ElementKind
  attributes : List Attribute
deriving DecidableEq, Repr

/-- Element::is_block_element. -/
def Element.isBlockElement (e : Element) : Bool :=
  match e.kind with
  | .body | .h1 | .h2 | .p => true
  | _ => false

/-- NodeKind from dom/node.rs. -/
inductive NodeKind where
  | document
  | element (e : Element)
  | text (s : String)
deriving DecidableEq, Repr

/-- The PartialEq implementation of NodeKind from dom/node.rs: Document
matches Document, Elements compare only their ElementKind (attributes are
ignored), Text matches Text (the content is ignored). -/
def nodeKindBeq : NodeKind → NodeKind → Bool
  | .document, other => match other with | .document => true | _ => false
  | .element e1, other => match other with | .element e2 => e1.kind = e2.kind | _ => false
  | .text _, other => match other with | .text _ => true | _ => false

/-- element_kind of a node (dom/node.rs): the ElementKind for element
nodes, none for Document and Text nodes. -/
def NodeKind.elementKind : NodeKind → Option ElementKind
  | .document => none
  | .text _ => none
  | .element e => some e.kind

/-! ## CSS tokenizer (src/saba_core/src/renderer/css/token.rs)

The tokenizer walks a `Vec<char>` with a position cursor.  Indexing the
vector out of bounds and hitting an unsupported character both abort the
program in the source; they are modelled as `Except` errors. -/

/-- CssToken from css/token.rs.  Number carries an f64 in the source,
modelled here by the exact rationals. -/
inductive CssToken where
  | hashToken (s : String)
  | delim (c : Char)
  | number (v : Rat)
  | colon
  | semiColon
  | openParenthesis
  | closeParenthesis
  | openCurly
  | closeCurly
  | ident (s : String)
  | stringToken (s : String)
  | atKeyword (s : String)
deriving DecidableEq, Repr

/-- The two fatal conditions of the CSS tokenizer: an out-of-bounds index
into the input vector, and the unimplemented-character arm. -/
inductive CssErr where
  | index
  | unsupported
  | fuel
deriving DecidableEq, Repr

/-- The loop of CssTokenizer::consume_string_token.  Note the source
increments the position and only then indexes the input; the bounds check
happens at the top of the next iteration, so a string reaching the end of
the input indexes one past the last character.  The fuel only bounds the
iteration count; every iteration advances the cursor, so the wrapper fuel
`input.length + 1` can never run out. -/
def consumeStringGo (input : List Char) : Nat → List Char → Nat →
    Except CssErr (List Char × Nat)
  | 0, _, _ => .error .fuel
  | fuel + 1, s, pos =>
    if pos ≥ input.length then .ok (s, pos)
    else
      match input.get? (pos + 1) with
      | none => .error .index
      | some c =>
        if c = '"' ∨ c = '\'' then .ok (s, pos + 1)
        else consumeStringGo input fuel (s ++ [c]) (pos + 1)

/-- CssTokenizer::consume_string_token, entered at the opening quote. -/
def consumeStringToken (input : List Char) (pos : Nat) :
    Except CssErr (List Char × Nat) :=
  consumeStringGo input (input.length + 1) [] pos

/-- The loop of CssTokenizer::consume_numeric_token.  `num` is the value
accumulated so far; after a decimal point `floating` is set and each digit
is added with weight `floatingDigit`, which the source INCREMENTS by 1/10
before each fractional digit (so the weights are 1.1, 1.2, 1.3, ...). -/
def consumeNumericGo (input : List Char) : Nat → Rat → Bool → Rat → Nat →
    Rat × Nat
  | 0, num, _, _, pos => (num, pos)
  | fuel + 1, num, floating, floatingDigit, pos =>
    match input.get? pos with
    | none => (num, pos)
    | some c =>
      if '0' ≤ c ∧ c ≤ '9' then
        if floating then
          let fd := floatingDigit + 1 / 10
          consumeNumericGo input fuel (num + (c.toNat - '0'.toNat : Nat) * fd) floating fd (pos + 1)
        else
          consumeNumericGo input fuel (num * 10 + (c.toNat - '0'.toNat : Nat)) floating floatingDigit (pos + 1)
      else if c = '.' then
        consumeNumericGo input fuel num true floatingDigit (pos + 1)
      else (num, pos)

/-- CssTokenizer::consume_numeric_token. -/
def consumeNumericToken (input : List Char) (pos : Nat) : Rat × Nat :=
  consumeNumericGo input (input.length + 1) 0 false 1 pos

/-- Identifier characters: ASCII letters, digits, underscore, hyphen. -/
def isIdentChar (c : Char) : Bool :=
  ('a' ≤ c ∧ c ≤ 'z') ∨ ('A' ≤ c ∧ c ≤ 'Z') ∨ ('0' ≤ c ∧ c ≤ '9') ∨ c = '_' ∨ c = '-'

/-- The loop of CssTokenizer::consume_ident_token.  As in the string case
the source increments the position and indexes the input BEFORE the bounds
check of the next iteration, so an identifier reaching exactly the end of
the input indexes out of bounds. -/
def consumeIdentGo (input : List Char) : Nat → List Char → Nat →
    Except CssErr (List Char × Nat)
  | 0, _, _ => .error .fuel
  | fuel + 1, s, pos =>
    if pos ≥ input.length then .ok (s, pos)
    else
      match input.get? (pos + 1) with
      | none => .error .index
      | some c =>
        if isIdentChar c then consumeIdentGo input fuel (s ++ [c]) (pos + 1)
        else .ok (s, pos + 1)

/-- CssTokenizer::consume_ident_token: pushes the character at the current
position, then scans forward. -/
def consumeIdentToken (input : List Char) (pos : Nat) :
    Except CssErr (List Char × Nat) :=
  match input.get? pos with
  | none => .error .index
  | some c0 => consumeIdentGo input (input.length + 1) [c0] pos

/-- One call of the Iterator::next implementation of CssTokenizer.  `ok
none` is the end of the stream; on success the token and the next cursor
position are returned.  The position arithmetic mirrors the source: the
ident/hash/number/at branches decrement the position after the consume
call and the shared epilogue increments it.  The fuel only bounds the
whitespace-skipping iterations. -/
def cssNextGo (input : List Char) : Nat → Nat →
    Except CssErr (Option (CssToken × Nat))
  | 0, _ => .error .fuel
  | fuel + 1, pos =>
  match input.get? pos with
  | none => .ok none
  | some c =>
    if c = '(' then .ok (some (.openParenthesis, pos + 1))
    else if c = ')' then .ok (some (.closeParenthesis, pos + 1))
    else if c = ',' then .ok (some (.delim ',', pos + 1))
    else if c = '.' then .ok (some (.delim '.', pos + 1))
    else if c = ':' then .ok (some (.colon, pos + 1))
    else if c = ';' then .ok (some (.semiColon, pos + 1))
    else if c = '{' then .ok (some (.openCurly, pos + 1))
    else if c = '}' then .ok (some (.closeCurly, pos + 1))
    else if c = ' ' ∨ c = '\n' then cssNextGo input fuel (pos + 1)
    else if c = '"' ∨ c = '\'' then
      match consumeStringToken input pos with
      | .error e => .error e
      | .ok (s, p) => .ok (some (.stringToken (String.mk s), p + 1))
    else if '0' ≤ c ∧ c ≤ '9' then
      let (v, p) := consumeNumericToken input pos
      .ok (some (.number v, p - 1 + 1))
    else if c = '#' then
      match consumeIdentToken input pos with
      | .error e => .error e
      | .ok (s, p) => .ok (some (.hashToken (String.mk s), p - 1 + 1))
    else if c = '-' then
      match consumeIdentToken input pos with
      | .error e => .error e
      | .ok (s, p) => .ok (some (.ident (String.mk s), p - 1 + 1))
    else if c = '@' then
      if input.length ≥ pos + 3 then
        match input.get? (pos + 1), input.get? (pos + 2), input.get? (pos + 3) with
        | some a1, some a2, some a3 =>
          if a1.isAlpha ∧ a2.isAlpha ∧ a3.isAlpha then
            match consumeIdentToken input (pos + 1) with
            | .error e => .error e
            | .ok (s, p) => .ok (some (.atKeyword (String.mk s), p - 1 + 1))
          else .ok (some (.delim '@', pos + 1))
        | _, _, _ => .error .index
      else .ok (some (.delim '@', pos + 1))
    else if ('a' ≤ c ∧ c ≤ 'z') ∨ ('A' ≤ c ∧ c ≤ 'Z') ∨ c = '_' then
      match consumeIdentToken input pos with
      | .error e => .error e
      | .ok (s, p) => .ok (some (.ident (String.mk s), p - 1 + 1))
    else .error .unsupported

/-- One call of the Iterator::next implementation of CssTokenizer. -/
def cssNext (input : List Char) (pos : Nat) :
    Except CssErr (Option (CssToken × Nat)) :=
  cssNextGo input (input.length + 1) pos

/-- Driving the tokenizer to the end of the stream.  The fuel bounds the
number of tokens; every produced token advances the cursor, so an input of
n characters yields at most n tokens and `n + 1` fuel is always enough. -/
def tokenizeCssGo (input : List Char) : Nat → Nat → Except CssErr (List CssToken)
  | 0, _ => .error .fuel
  | fuel + 1, pos =>
    match cssNext input pos with
    | .error e => .error e
    | .ok none => .ok []
    | .ok (some (t, p)) =>
      match tokenizeCssGo input fuel p with
      | .error e => .error e
      | .ok ts => .ok (t :: ts)

/-- Full tokenization of a CSS string: the finite token stream, or the
fatal error the reference tokenizer aborts with. -/
def tokenizeCss (s : String) : Except CssErr (List CssToken) :=
  tokenizeCssGo s.toList (s.toList.length + 1) 0

/-! ## CSSOM (src/saba_core/src/renderer/css/cssom.rs) -/

/-- Selector from css/cssom.rs. -/
inductive Selector where
  | typeSelector (tag : String)
  | classSelector (name : String)
  | idSelector (name : String)
  | unknownSelector
deriving DecidableEq, Repr

/-- A component value is a single CSS token (css/cssom.rs). -/
abbrev ComponentValue := CssToken

/-- Declaration from css/cssom.rs: property name plus one component
value. -/
structure Declaration where
  property : String
  value : ComponentValue
deriving DecidableEq, Repr

/-- QualifiedRule from css/cssom.rs. -/
structure QualifiedRule where
  selector : Selector
  declarations : List Declaration
deriving DecidableEq, Repr

/-- StyleSheet from css/cssom.rs: the ordered rule list. -/
structure StyleSheet where
  rules : List QualifiedRule
deriving DecidableEq, Repr

/-! ## Computed style

Modelled from the spec: layout/computed_style.rs is not under src/.  Per
the spec a ComputedStyle resolves background-color, color, display
(Block / Inline / DisplayNone), a font-size class and text-decoration;
`background-color` and `color` accept a named color or a #RRGGBB hash
token and fall back to white / black on parse failure; `display` accepts
block / inline / none and falls back to none on parse failure; after
cascading, defaulting fills every still-unset field from element-kind
defaults (display defaults to block exactly for the block elements
body / h1 / h2 / p and to inline otherwise) or, where applicable, from
the parent's computed value. -/

/-- Modelled from the spec: the display property values. -/
inductive DisplayType where
  | block
  | inline
  | displayNone
deriving DecidableEq, Repr

/-- Modelled from the spec: DisplayType::from_str accepts block, inline
and none. -/
def DisplayType.fromStr (s : String) : Option DisplayType :=
  if s = "block" then some .block
  else if s = "inline" then some .inline
  else if s = "none" then some .displayNone
  else none

/-- Modelled from the spec: the font-size classes used by the layout
engine (the text size factor is 1, 2 or 3). -/
inductive FontSize where
  | medium
  | xLarge
  | xxLarge
deriving DecidableEq, Repr

/-- Modelled from the spec: text-decoration values. -/
inductive TextDecoration where
  | noDecoration
  | underline
deriving DecidableEq, Repr

/-- Modelled from the spec: a resolved color, named or #RRGGBB coded.  The
exact color table is not under src/; the table below contains the names
the tests and examples use.  None of the properties proved depends on the
contents of the table, only on the fallback behavior. -/
structure Color where
  name : String
  code : String
deriving DecidableEq, Repr

/-- Modelled from the spec: the named-color table. -/
def colorTable : List (String × String) :=
  [("white", "#ffffff"), ("black", "#000000"), ("red", "#ff0000"),
   ("green", "#008000"), ("blue", "#0000ff"), ("orange", "#ffa500"),
   ("yellow", "#ffff00"), ("gray", "#808080"), ("lightblue", "#add8e6")]

/-- Modelled from the spec: Color::white. -/
def Color.white : Color := ⟨"white", "#ffffff"⟩

/-- Modelled from the spec: Color::black. -/
def Color.black : Color := ⟨"black", "#000000"⟩

/-- Modelled from the spec: Color::from_name, failing on unknown names. -/
def Color.fromName (s : String) : Option Color :=
  (colorTable.find? (fun p => p.1 = s)).map (fun p => ⟨p.1, p.2⟩)

/-- Modelled from the spec: Color::from_code, accepting #RRGGBB-style
codes (a leading hash and seven characters), failing otherwise. -/
def Color.fromCode (s : String) : Option Color :=
  if s.startsWith "#" ∧ s.length = 7 then
    some ⟨((colorTable.find? (fun p => p.2 = s)).map (fun p => p.1)).getD "", s⟩
  else none

/-- Modelled from the spec: the computed style of one layout object.
Fields are unset (none) until the cascade or defaulting assigns them;
ComputedStyle::new leaves every field unset. -/
structure ComputedStyle where
  backgroundColor : Option Color := none
  color : Option Color := none
  display : Option DisplayType := none
  fontSize : Option FontSize := none
  textDecoration : Option TextDecoration := none
deriving DecidableEq, Repr

/-- Modelled from the spec: ComputedStyle::new with every field unset. -/
def ComputedStyle.new : ComputedStyle := {}

/-- Modelled from the spec: the background-color setter. -/
def ComputedStyle.setBackgroundColor (st : ComputedStyle) (c : Color) : ComputedStyle :=
  { st with backgroundColor := some c }

/-- Modelled from the spec: the color setter. -/
def ComputedStyle.setColor (st : ComputedStyle) (c : Color) : ComputedStyle :=
  { st with color := some c }

/-- Modelled from the spec: the display setter. -/
def ComputedStyle.setDisplay (st : ComputedStyle) (d : DisplayType) : ComputedStyle :=
  { st with display := some d }

/-- Modelled from the spec: the font-size getter; the source asserts the
field was filled by defaulting, which always holds for styles produced by
create_layout_object, so the default is never observed there. -/
def ComputedStyle.fontSizeOf (st : ComputedStyle) : FontSize :=
  st.fontSize.getD .medium

/-! ## Style resolution (src/saba_core/src/renderer/layout/layout_object.rs) -/

/-- LayoutObject::is_node_selected: id and class selectors match on the
attribute list, type selectors on the printed tag name; UnknownSelector
and non-element nodes never match. -/
def isNodeSelected (nk : NodeKind) (sel : Selector) : Bool :=
  match nk with
  | .element e =>
    match sel with
    | .idSelector ident => e.attributes.any (fun attr => attr.name = "id" ∧ attr.value = ident)
    | .classSelector className => e.attributes.any (fun attr => attr.name = "class" ∧ attr.value = className)
    | .typeSelector tag => e.kind.toStr = tag
    | .unknownSelector => false
  | _ => false

/-- One iteration of the loop of LayoutObject::cascading_style: apply a
single declaration to the style, with the fallback colors white (for
background-color), black (for color) and the fallback display none; value
tokens of the wrong shape leave the style unchanged. -/
def declEffect (st : ComputedStyle) (d : Declaration) : ComputedStyle :=
  if d.property = "background-color" then
    match d.value with
    | .ident v => st.setBackgroundColor ((Color.fromName v).getD Color.white)
    | .hashToken v => st.setBackgroundColor ((Color.fromCode v).getD Color.white)
    | _ => st
  else if d.property = "color" then
    match d.value with
    | .ident v => st.setColor ((Color.fromName v).getD Color.black)
    | .hashToken v => st.setColor ((Color.fromCode v).getD Color.black)
    | _ => st
  else if d.property = "display" then
    match d.value with
    | .ident v => st.setDisplay ((DisplayType.fromStr v).getD .displayNone)
    | _ => st
  else st

/-- LayoutObject::cascading_style: apply a declaration list in order. -/
def cascadingStyle (st : ComputedStyle) (ds : List Declaration) : ComputedStyle :=
  ds.foldl declEffect st

/-- The rule loop of create_layout_object: each rule whose selector
matches the node has its declarations cascaded, in sheet order. -/
def cascadeRules (nk : NodeKind) (rules : List QualifiedRule) (st : ComputedStyle) :
    ComputedStyle :=
  rules.foldl (fun acc r => if isNodeSelected nk r.selector then cascadingStyle acc r.declarations else acc) st

/-- Modelled from the spec: the element-kind default for display — block
for the block elements (body, h1, h2, p, via Element::is_block_element
from src), inline otherwise (inline elements and text nodes). -/
def defaultDisplay (nk : NodeKind) : DisplayType :=
  match nk with
  | .element e => if e.isBlockElement then .block else .inline
  | _ => .inline

/-- Modelled from the spec: the element-kind default font-size class. -/
def defaultFontSize (nk : NodeKind) : FontSize :=
  match nk with
  | .element e =>
    match e.kind with
    | .h1 => .xxLarge
    | .h2 => .xLarge
    | _ => .medium
  | _ => .medium

/-- Modelled from the spec: the element-kind default text-decoration. -/
def defaultTextDecoration (nk : NodeKind) : TextDecoration :=
  match nk with
  | .element e => match e.kind with | .a => .underline | _ => .noDecoration
  | _ => .noDecoration

/-- Modelled from the spec: ComputedStyle::defaulting — every still-unset
field is filled from the parent's computed value where applicable
(background-color, color, font-size, text-decoration are inherited) and
otherwise from the element-kind default; display is not inherited and
defaults purely by element kind. -/
def defaultingStyle (nk : NodeKind) (parentStyle : Option ComputedStyle)
    (st : ComputedStyle) : ComputedStyle :=
  { backgroundColor := some (st.backgroundColor.getD
      ((parentStyle.bind (fun ps => ps.backgroundColor)).getD Color.white))
    color := some (st.color.getD
      ((parentStyle.bind (fun ps => ps.color)).getD Color.black))
    display := some (st.display.getD (defaultDisplay nk))
    fontSize := some (st.fontSize.getD
      ((parentStyle.bind (fun ps => ps.fontSize)).getD (defaultFontSize nk)))
    textDecoration := some (st.textDecoration.getD
      ((parentStyle.bind (fun ps => ps.textDecoration)).getD (defaultTextDecoration nk))) }

/-- The kind of a layout object (layout_object.rs). -/
inductive LayoutObjectKind where
  | block
  | inline
  | text
deriving DecidableEq, Repr

/-- LayoutObject::update_kind: Text nodes give Text objects, elements map
their resolved display to Block or Inline; a Document node, a display of
none, and an unset display field all panic in the source, modelled as
none. -/
def updateKind (nk : NodeKind) (st : ComputedStyle) : Option LayoutObjectKind :=
  match nk with
  | .document => none
  | .element _ =>
    match st.display with
    | some .block => some .block
    | some .inline => some .inline
    | _ => none
  | .text _ => some .text

/-- The full style resolution performed by create_layout_object: cascade
every matching rule over a fresh style, then apply defaulting with the
parent style. -/
def resolvedStyle (nk : NodeKind) (parentStyle : Option ComputedStyle)
    (sheet : StyleSheet) : ComputedStyle :=
  defaultingStyle nk parentStyle (cascadeRules nk sheet.rules ComputedStyle.new)

/-- create_layout_object from layout_object.rs, for a present node: build
the resolved style; if the resolved display is none no layout object is
created; otherwise the kind is decided by update_kind (whose panic paths
are modelled as none; they are unreachable below a body element). -/
def createLayoutObject (nk : NodeKind) (parentStyle : Option ComputedStyle)
    (sheet : StyleSheet) : Option (LayoutObjectKind × ComputedStyle) :=
  let st := resolvedStyle nk parentStyle sheet
  if st.display = some DisplayType.displayNone then none
  else
    match updateKind nk st with
    | some k => some (k, st)
    | none => none

/-! ## Layout geometry (layout_object.rs, layout_view.rs)

Sizes and positions are i64 in the source; every quantity entering them
here is nonnegative and far below the wrapping range, so they are
modelled as Nat and wrapping_div / wrapping_rem as Nat division and
remainder. -/

/-- Modelled from the spec: constants.rs is not under src/.  The spec
fixes a constant content-area width, window metrics and character cell
metrics but not their numeric values; representative values are used.
The theorems below either hold for any positive choice or say so in
their statements. -/
def CHAR_WIDTH : Nat := 8

/-- Modelled from the spec: the line height including padding. -/
def CHAR_HEIGHT_WITH_PADDING : Nat := 20

/-- Modelled from the spec: the window width. -/
def WINDOW_WIDTH : Nat := 600

/-- Modelled from the spec: the window padding. -/
def WINDOW_PADDING : Nat := 5

/-- Modelled from the spec: the fixed content-area width. -/
def CONTENT_AREA_WIDTH : Nat := 590

/-- LayoutSize from layout_object.rs. -/
structure LayoutSize where
  width : Nat
  height : Nat
deriving DecidableEq, Repr

/-- LayoutPoint from layout_object.rs. -/
structure LayoutPoint where
  x : Nat
  y : Nat
deriving DecidableEq, Repr

/-- Modelled from the spec: display_item.rs is not under src/.  A display
item is an already-positioned rectangle or text run. -/
inductive DisplayItem where
  | rect (style : ComputedStyle) (point : LayoutPoint) (size : LayoutSize)
  | text (content : List Char) (style : ComputedStyle) (point : LayoutPoint)
deriving DecidableEq, Repr

/-- The point of a display item. -/
def DisplayItem.point : DisplayItem → LayoutPoint
  | .rect _ p _ => p
  | .text _ _ p => p

/-- find_index_for_line_break from layout_object.rs: the largest index
below maxIndex holding a space, or maxIndex when there is none.  (The
source indexes the line at each candidate; at its call site the line is
longer than maxIndex, so the lookup never goes out of bounds.) -/
def findIndexForLineBreak (line : List Char) (maxIndex : Nat) : Nat :=
  (((List.range maxIndex).reverse).find? (fun i => line.get? i = some ' ')).getD maxIndex

/-- Rust str::trim on a character list (the texts this engine handles are
ASCII, where trim strips spaces, newlines and tabs). -/
def trimChars (l : List Char) : List Char :=
  ((l.dropWhile (fun c => c = ' ' ∨ c = '\n' ∨ c = '\t')).reverse.dropWhile
    (fun c => c = ' ' ∨ c = '\n' ∨ c = '\t')).reverse

/-- The recursion of split_text from layout_object.rs: while the line is
wider than WINDOW_WIDTH + WINDOW_PADDING, split at the break index and
recurse on the trimmed remainder.  Each step removes at least one
character from the recursion argument whenever the break index is
positive, so the wrapper fuel `line.length + 1` never runs out on the
inputs reached from paint (where the line was normalized and the break
index is positive); fuel exhaustion models the divergence the source
would exhibit elsewhere. -/
def splitTextGo (charWidth : Nat) : Nat → List Char → List (List Char)
  | 0, line => [line]
  | fuel + 1, line =>
    if line.length * charWidth > WINDOW_WIDTH + WINDOW_PADDING then
      let idx := findIndexForLineBreak line ((WINDOW_WIDTH + WINDOW_PADDING) / charWidth)
      line.take idx :: splitTextGo charWidth fuel (trimChars (line.drop idx))
    else [line]

/-- split_text from layout_object.rs. -/
def splitText (line : List Char) (charWidth : Nat) : List (List Char) :=
  splitTextGo charWidth (line.length + 1) line

/-- The text normalization performed by LayoutObject::paint: remove
newlines, split on spaces, drop empty fragments, join with single
spaces. -/
def normalizeText (t : List Char) : List Char :=
  List.intercalate [' ']
    (((t.filter (fun c => c ≠ '\n')).splitOn ' ').filter (fun w => ¬ w.isEmpty))

/-- The size ratio derived from the font-size class (the match at the top
of the Text arms of compute_size and paint). -/
def fontSizeFactor (st : ComputedStyle) : Nat :=
  match st.fontSizeOf with
  | .medium => 1
  | .xLarge => 2
  | .xxLarge => 3

/-- The child loop of the Block arm of LayoutObject::compute_size: walk
the children front to back, adding the height of each child that is a
Block or whose predecessor was a Block; the previous-kind accumulator
starts as Block, so the first child always contributes. -/
def blockChildrenHeight (children : List (LayoutObjectKind × LayoutSize)) : Nat :=
  (children.foldl
    (fun acc c =>
      (acc.1 + (if acc.2 = LayoutObjectKind.block ∨ c.1 = LayoutObjectKind.block then c.2.height else 0),
       c.1))
    (0, LayoutObjectKind.block)).1

/-- LayoutObject::compute_size, as a function of the object kind, its DOM
node kind, its style, the kinds and current sizes of its children, and
the parent size.  Blocks take the parent width and the looped child
height; Inline objects sum the widths and heights of their children;
Text objects measure the raw text and fold it into lines by the
width-quotient of the content area (the remainder/quotient pair mirrors
wrapping_rem / wrapping_div); non-Text nodes in the Text arm keep the
initial zero size. -/
def computeSize (kind : LayoutObjectKind) (nk : NodeKind) (st : ComputedStyle)
    (children : List (LayoutObjectKind × LayoutSize)) (parentSize : LayoutSize) :
    LayoutSize :=
  match kind with
  | .block => ⟨parentSize.width, blockChildrenHeight children⟩
  | .inline =>
    ⟨children.foldl (fun acc c => acc + c.2.width) 0,
     children.foldl (fun acc c => acc + c.2.height) 0⟩
  | .text =>
    match nk with
    | .text t =>
      let factor := fontSizeFactor st
      let width := CHAR_WIDTH * factor * t.length
      if width > CONTENT_AREA_WIDTH then
        let lineNum :=
          if width % CONTENT_AREA_WIDTH = 0 then width / CONTENT_AREA_WIDTH
          else width / CONTENT_AREA_WIDTH + 1
        ⟨CONTENT_AREA_WIDTH, lineNum * factor * CHAR_HEIGHT_WITH_PADDING⟩
      else ⟨width, factor * CHAR_HEIGHT_WITH_PADDING⟩
    | _ => ⟨0, 0⟩

/-- LayoutObject::compute_position. -/
def computePosition (kind : LayoutObjectKind) (parentPoint : LayoutPoint)
    (prevKind : LayoutObjectKind) (prevPoint : Option LayoutPoint)
    (prevSize : Option LayoutSize) : LayoutPoint :=
  if kind = LayoutObjectKind.block ∨ prevKind = LayoutObjectKind.block then
    match prevSize, prevPoint with
    | some sz, some pos => ⟨parentPoint.x, pos.y + sz.height⟩
    | _, _ => ⟨parentPoint.x, parentPoint.y⟩
  else if kind = LayoutObjectKind.inline ∧ prevKind = LayoutObjectKind.inline then
    match prevSize, prevPoint with
    | some sz, some pos => ⟨pos.x + sz.width, pos.y⟩
    | _, _ => ⟨parentPoint.x, parentPoint.y⟩
  else ⟨parentPoint.x, parentPoint.y⟩

/-- LayoutObject::paint, as a function of the object kind, DOM node kind,
style, computed point and size: Block element nodes emit one Rect;
Inline objects emit nothing; Text nodes normalize their text, re-run the
line splitting, and emit one Text item per line, offset vertically by
CHAR_HEIGHT_WITH_PADDING per line index; objects whose display resolved
to none emit nothing. -/
def paintObject (kind : LayoutObjectKind) (nk : NodeKind) (st : ComputedStyle)
    (pt : LayoutPoint) (sz : LayoutSize) : List DisplayItem :=
  if st.display = some DisplayType.displayNone then []
  else
    match kind with
    | .block =>
      match nk with
      | .element _ => [.rect st pt sz]
      | _ => []
    | .inline => []
    | .text =>
      match nk with
      | .text t =>
        let factor := fontSizeFactor st
        let lines := splitText (normalizeText t.toList) (CHAR_WIDTH * factor)
        lines.enum.map (fun p =>
          DisplayItem.text p.2 st ⟨pt.x, pt.y + CHAR_HEIGHT_WITH_PADDING * p.1⟩)
      | _ => []

/-! ## The layout tree (layout_view.rs)

The tree of layout objects: each node holds the object kind, the kind of
the DOM node it was created from, its resolved style, and the
first-child / next-sibling links; the `nil` constructor is the absent
object (None in the source). -/

/-- A first-child / next-sibling DOM tree as consumed by the layout
stage; `nil` is the absence of a node (None). -/
inductive DomTree where
  | nil
  | node (kind : NodeKind) (firstChild : DomTree) (nextSibling : DomTree)
deriving DecidableEq, Repr

/-- The next sibling of a DOM tree node. -/
def DomTree.nextSibling : DomTree → DomTree
  | .nil => .nil
  | .node _ _ ns => ns

/-- The node kind at the root of a DOM tree, if present. -/
def DomTree.kind? : DomTree → Option NodeKind
  | .nil => none
  | .node k _ _ => some k

/-- The layout tree produced by build_layout_tree; `nil` is None. -/
inductive LayoutTree where
  | nil
  | node (kind : LayoutObjectKind) (dom : NodeKind) (style : ComputedStyle)
         (firstChild : LayoutTree) (nextSibling : LayoutTree)
deriving DecidableEq, Repr

/-- build_layout_tree from layout_view.rs together with its two
skip-and-retry loops, as one fuel-indexed recursion; the `retry` flag
false is the build_layout_tree entry, true is the inner loop that walks a
sibling chain until a subtree builds (the loops at the bottom of the
source function).  One unit of fuel is spent per recursive call, so any
fuel above twice the node count of the tree is enough; every theorem
below quantifies over the fuel or supplies a sufficient one.

The semantics per arm:
* a missing node builds nothing;
* if create_layout_object suppresses the node (display none or its panic
  paths), building restarts from the next sibling, with the same parent;
* otherwise the first-child subtree is built with the new object as
  parent and the next-sibling subtree with parent None; if a subtree
  came back empty while the corresponding DOM child existed, the retry
  loop rebuilds starting from that child's next sibling — both retry
  loops pass the created object as the parent (the source passes
  &layout_object in both). -/
def buildGo : Nat → Bool → DomTree → Option ComputedStyle → StyleSheet → LayoutTree
  | _, _, .nil, _, _ => .nil
  | 0, _, .node _ _ _, _, _ => .nil
  | fuel + 1, false, .node k fc ns, ps, sheet =>
    match createLayoutObject k ps sheet with
    | none => buildGo fuel false ns ps sheet
    | some (lk, st) =>
      let fc0 := buildGo fuel false fc (some st) sheet
      let ns0 := buildGo fuel false ns none sheet
      let fc1 :=
        match fc0, fc with
        | .nil, .node _ _ cns => buildGo fuel true cns (some st) sheet
        | f, _ => f
      let ns1 :=
        match ns0, ns with
        | .nil, .node _ _ mns => buildGo fuel true mns (some st) sheet
        | f, _ => f
      .node lk k st fc1 ns1
  | fuel + 1, true, .node k fc ns, ps, sheet =>
    match buildGo fuel false (.node k fc ns) ps sheet with
    | .nil => buildGo fuel true ns ps sheet
    | r => r

/-- The number of nodes of a DOM tree (the nil leaves included). -/
def DomTree.nodeCount : DomTree → Nat
  | .nil => 1
  | .node _ fc ns => 1 + fc.nodeCount + ns.nodeCount

/-- A fuel certainly sufficient for buildGo on a given tree. -/
def buildFuel (t : DomTree) : Nat := 2 * t.nodeCount + 2

/-- build_layout_tree at the standard entry (retry flag off, ample
fuel). -/
def buildLayoutTree (t : DomTree) (parentStyle : Option ComputedStyle)
    (sheet : StyleSheet) : LayoutTree :=
  buildGo (buildFuel t) false t parentStyle sheet

/-- The size-annotated layout tree produced by the size pass. -/
inductive SizedTree where
  | nil
  | node (kind : LayoutObjectKind) (dom : NodeKind) (style : ComputedStyle)
         (size : LayoutSize) (firstChild : SizedTree) (nextSibling : SizedTree)
deriving DecidableEq, Repr

/-- The kinds of a sibling chain of the unsized layout tree. -/
def siblingChainKinds : LayoutTree → List LayoutObjectKind
  | .nil => []
  | .node k _ _ _ ns => k :: siblingChainKinds ns

/-- The kinds and computed sizes of a sibling chain of the sized tree. -/
def siblingKindSizes : SizedTree → List (LayoutObjectKind × LayoutSize)
  | .nil => []
  | .node k _ _ sz _ ns => (k, sz) :: siblingKindSizes ns

/-- The size at the root of a sized tree. -/
def SizedTree.size? : SizedTree → Option LayoutSize
  | .nil => none
  | .node _ _ _ sz _ _ => some sz

/-- The kinds and sizes of the children of the root of a sized tree. -/
def SizedTree.childKindSizes : SizedTree → List (LayoutObjectKind × LayoutSize)
  | .nil => []
  | .node _ _ _ _ fc _ => siblingKindSizes fc

/-- LayoutView::calculate_node_size: for a Block node compute_size runs
once before the children are sized (fixing the width; at that moment
every child still has the initial zero size) and the children are sized
against that preliminary size; for other kinds the children are sized
against the still-initial zero size; siblings are sized against the
original parent size; finally compute_size runs again with the sized
children. -/
def sizeCalc : LayoutTree → LayoutSize → SizedTree
  | .nil, _ => .nil
  | .node k nk st fc ns, parentSize =>
    let pre :=
      if k = LayoutObjectKind.block then
        computeSize k nk st ((siblingChainKinds fc).map (fun x => (x, ⟨0, 0⟩))) parentSize
      else ⟨0, 0⟩
    let fcS := sizeCalc fc pre
    let nsS := sizeCalc ns parentSize
    let fin := computeSize k nk st (siblingKindSizes fcS) parentSize
    .node k nk st fin fcS nsS

/-- The positioned layout tree produced by the position pass. -/
inductive PosTree where
  | nil
  | node (kind : LayoutObjectKind) (dom : NodeKind) (style : ComputedStyle)
         (point : LayoutPoint) (size : LayoutSize)
         (firstChild : PosTree) (nextSibling : PosTree)
deriving DecidableEq, Repr

/-- LayoutView::calculate_node_position: compute the point of the node,
position the children below it (with previous-kind Block and no previous
geometry), and position the next sibling against this node's point, kind
and size (the source passes this node's point as the sibling's parent
point). -/
def posCalc : SizedTree → LayoutPoint → LayoutObjectKind →
    Option LayoutPoint → Option LayoutSize → PosTree
  | .nil, _, _, _, _ => .nil
  | .node k nk st sz fc ns, parentPoint, prevKind, prevPoint, prevSize =>
    let pt := computePosition k parentPoint prevKind prevPoint prevSize
    let fcP := posCalc fc pt .block none none
    let nsP := posCalc ns pt k (some pt) (some sz)
    .node k nk st pt sz fcP nsP

/-- LayoutView::paint_node: pre-order traversal collecting each node's
display items, node before first-child subtree before next-sibling
subtree. -/
def paintTree : PosTree → List DisplayItem
  | .nil => []
  | .node k nk st pt sz fc ns =>
    paintObject k nk st pt sz ++ paintTree fc ++ paintTree ns

/-- The geometry-and-paint pipeline applied to a built layout tree, with
the root inputs of LayoutView::update_layout and LayoutView::paint: size
against the content-area width, position from the origin with
previous-kind Block, then collect display items. -/
def renderOf (lt : LayoutTree) : List DisplayItem :=
  paintTree (posCalc (sizeCalc lt ⟨CONTENT_AREA_WIDTH, 0⟩) ⟨0, 0⟩ .block none none)

/-! ## The mutable DOM of the tree constructor (dom/node.rs)

The Rc/RefCell-linked nodes of the source are embedded as an arena: a
list of nodes addressed by their index, with the link fields holding
optional indices.  Index 0 is the Document node owned by the Window.
The strong/weak distinction of the source links carries no meaning in
the arena. -/

/-- A DOM node with its link fields (dom/node.rs). -/
structure PNode where
  kind : NodeKind
  parent : Option Nat := none
  firstChild : Option Nat := none
  lastChild : Option Nat := none
  prevSibling : Option Nat := none
  nextSibling : Option Nat := none
deriving DecidableEq, Repr

/-- The node arena standing for the Rc-linked DOM. -/
structure Dom where
  nodes : List PNode
deriving DecidableEq, Repr

/-- The arena holding only the Document root (Window::new). -/
def Dom.initial : Dom := ⟨[{ kind := .document }]⟩

/-- Update one node of the arena in place (a no-op on an absent index,
which never occurs on indices handed out by the arena). -/
def Dom.updateAt (dom : Dom) (i : Nat) (f : PNode → PNode) : Dom :=
  match dom.nodes.get? i with
  | none => dom
  | some n => ⟨dom.nodes.set i (f n)⟩

/-- The node kind stored at an index. -/
def Dom.kindAt (dom : Dom) (i : Nat) : Option NodeKind :=
  (dom.nodes.get? i).map (fun n => n.kind)

/-- Node::element_kind at an index. -/
def Dom.elementKindAt (dom : Dom) (i : Nat) : Option ElementKind :=
  (dom.nodes.get? i).bind (fun n => n.kind.elementKind)

/-- Walking a sibling chain given its first member, collecting the
indices; the fuel is one more than the arena size, enough for any
acyclic chain. -/
def childChainGo (dom : Dom) : Nat → Option Nat → List Nat
  | 0, _ => []
  | _, none => []
  | fuel + 1, some i =>
    match dom.nodes.get? i with
    | none => []
    | some n => i :: childChainGo dom fuel n.nextSibling

/-- The children of a node, first child through the next-sibling
chain. -/
def childChain (dom : Dom) (i : Nat) : List Nat :=
  match dom.nodes.get? i with
  | none => []
  | some n => childChainGo dom (dom.nodes.length + 1) n.firstChild

/-- The walk to the last sibling in HtmlParser::insert_element (the loop
following next_sibling links from the first child); returns none on fuel
exhaustion, which models the divergence of the source on a cyclic chain
and never occurs on arenas built by the parser. -/
def lastSiblingGo (dom : Dom) : Nat → Nat → Option Nat
  | 0, _ => none
  | fuel + 1, i =>
    match dom.nodes.get? i with
    | none => none
    | some n =>
      match n.nextSibling with
      | none => some i
      | some j => lastSiblingGo dom fuel j

/-! ## HTML tree construction (src/saba_core/src/renderer/html/parser.rs) -/

/-- Modelled from the spec: html/token.rs is not under src/.  Per the
data model section an HTML token is a start tag with name, attributes and
a self-closing flag, an end tag with a name, a single character, or end
of file. -/
inductive HtmlToken where
  | startTag (tag : String) (attributes : List Attribute) (selfClosing : Bool)
  | endTag (tag : String)
  | char (c : Char)
  | eof
deriving DecidableEq, Repr

/-- InsertionMode from html/parser.rs. -/
inductive InsertionMode where
  | initial
  | beforeHtml
  | beforeHead
  | inHead
  | afterHead
  | inBody
  | text
  | afterBody
  | afterAfterBody
deriving DecidableEq, Repr

/-- The state of HtmlParser: the arena, the stack of open elements (head
of the list is the top of the stack, i.e. the last pushed element), the
insertion mode and the saved original insertion mode. -/
structure PState where
  dom : Dom
  stack : List Nat
  mode : InsertionMode
  origMode : InsertionMode
deriving DecidableEq, Repr

/-- The parser state at the start of construct_tree. -/
def PState.initial : PState :=
  ⟨Dom.initial, [], .initial, .initial⟩

/-- HtmlParser::contain_in_stack. -/
def containInStack (dom : Dom) (stack : List Nat) (k : ElementKind) : Bool :=
  stack.any (fun i => dom.elementKindAt i = some k)

/-- The pop loop of HtmlParser::pop_until: remove stack entries from the
top until one of the requested kind has been removed (an empty stack ends
the loop). -/
def popUntilLoop (dom : Dom) : List Nat → ElementKind → List Nat
  | [], _ => []
  | i :: rest, k =>
    if dom.elementKindAt i = some k then rest else popUntilLoop dom rest k

/-- HtmlParser::pop_until: the source first asserts that an element of
the requested kind is on the stack (a fatal panic otherwise, modelled as
none) and then pops until that element has been removed. -/
def popUntil (dom : Dom) (stack : List Nat) (k : ElementKind) : Option (List Nat) :=
  if containInStack dom stack k then some (popUntilLoop dom stack k)
  else none

/-- HtmlParser::pop_current_node: pop the top of the stack when it has
the requested kind; report whether it did. -/
def popCurrentNode (dom : Dom) (stack : List Nat) (k : ElementKind) :
    Bool × List Nat :=
  match stack with
  | [] => (false, [])
  | i :: rest =>
    if dom.elementKindAt i = some k then (true, rest) else (false, i :: rest)

/-- HtmlParser::insert_char: append the character to the top-of-stack
node when that node is a text node; otherwise ignore spaces and newlines;
otherwise create a new one-character text node, attach it — as the next
sibling of the current node's FIRST child when one exists, else as the
first child — repoint the last-child link, set its parent, and push it
onto the stack of open elements.  An empty stack ignores the
character. -/
def insertChar (dom : Dom) (stack : List Nat) (c : Char) : Dom × List Nat :=
  match stack with
  | [] => (dom, stack)
  | cur :: _ =>
    match dom.nodes.get? cur with
    | none => (dom, stack)
    | some curNode =>
      match curNode.kind with
      | .text s => (dom.updateAt cur (fun n => { n with kind := .text (s.push c) }), stack)
      | _ =>
        if c = '\n' ∨ c = ' ' then (dom, stack)
        else
          let newId := dom.nodes.length
          let dom1 : Dom := ⟨dom.nodes ++ [{ kind := .text (String.singleton c) }]⟩
          let dom2 :=
            match curNode.firstChild with
            | some fcId => dom1.updateAt fcId (fun n => { n with nextSibling := some newId })
            | none => dom1.updateAt cur (fun n => { n with firstChild := some newId })
          let dom3 := dom2.updateAt cur (fun n => { n with lastChild := some newId })
          let dom4 := dom3.updateAt newId (fun n => { n with parent := some cur })
          (dom4, newId :: stack)

/-- HtmlParser::insert_element: the current node is the top of the stack,
or the document root when the stack is empty; a fresh element node (whose
construction panics on an unsupported tag name, modelled as none) is
appended after the last sibling of the current node's children (or as the
first child), the last-child link is repointed, the parent is set and the
new node is pushed. -/
def insertElement (dom : Dom) (stack : List Nat) (tag : String)
    (attrs : List Attribute) : Option (Dom × List Nat) :=
  match ElementKind.fromStr tag with
  | none => none
  | some k =>
    let cur := stack.headD 0
    match dom.nodes.get? cur with
    | none => none
    | some curNode =>
      let newId := dom.nodes.length
      let dom1 : Dom := ⟨dom.nodes ++ [{ kind := .element ⟨k, attrs⟩ }]⟩
      match curNode.firstChild with
      | some fcId =>
        match lastSiblingGo dom1 (dom1.nodes.length + 1) fcId with
        | none => none
        | some lastId =>
          let dom2 := dom1.updateAt lastId (fun n => { n with nextSibling := some newId })
          let dom3 := dom2.updateAt newId (fun n => { n with prevSibling := some lastId })
          let dom4 := dom3.updateAt cur (fun n => { n with lastChild := some newId })
          let dom5 := dom4.updateAt newId (fun n => { n with parent := some cur })
          some (dom5, newId :: stack)
      | none =>
        let dom2 := dom1.updateAt cur (fun n => { n with firstChild := some newId })
        let dom3 := dom2.updateAt cur (fun n => { n with lastChild := some newId })
        let dom4 := dom3.updateAt newId (fun n => { n with parent := some cur })
        some (dom4, newId :: stack)

/-- The outcome of dispatching one token in the construct_tree loop:
continue with a new state, consuming the token or not; return the window
(the EOF arms); or hit a fatal panic. -/
inductive StepR where
  | next (s : PState) (consumed : Bool)
  | stop (s : PState)
  | fail
deriving DecidableEq, Repr

/-- Insert an element and continue; a panic inside insertion is a fatal
step. -/
def stepInsert (s : PState) (tag : String) (attrs : List Attribute)
    (mode : InsertionMode) (consumed : Bool) : StepR :=
  match insertElement s.dom s.stack tag attrs with
  | none => .fail
  | some (d, st) => .next { s with dom := d, stack := st, mode := mode } consumed

/-- One dispatch of the construct_tree loop of html/parser.rs: given the
parser state and the current token, the outcome of the match on the
insertion mode.  Every arm mirrors the source arm for arm; `consumed`
records whether the arm advanced the tokenizer. -/
def step (s : PState) (tok : HtmlToken) : StepR :=
  match s.mode with
  | .initial =>
    match tok with
    | .char _ => .next s true
    | _ => .next { s with mode := .beforeHtml } false
  | .beforeHtml =>
    match tok with
    | .char c =>
      if c = ' ' ∨ c = '\n' then .next s true
      else stepInsert s "html" [] .beforeHead false
    | .startTag tag attrs _ =>
      if tag = "html" then stepInsert s tag attrs .beforeHead true
      else stepInsert s "html" [] .beforeHead false
    | .endTag tag =>
      -- the source guard `tag != "head" || tag != "body" || tag != "html"
      -- || tag != "br"` is a disjunction of inequalities and therefore
      -- always true: every end tag is consumed and ignored here
      if ¬ tag = "head" ∨ ¬ tag = "body" ∨ ¬ tag = "html" ∨ ¬ tag = "br" then
        .next s true
      else stepInsert s "html" [] .beforeHead false
    | .eof => .stop s
  | .beforeHead =>
    match tok with
    | .char c =>
      if c = ' ' ∨ c = '\n' then .next s true
      else stepInsert s "head" [] .inHead false
    | .startTag tag attrs _ =>
      if tag = "head" then stepInsert s tag attrs .inHead true
      else stepInsert s "head" [] .inHead false
    | .endTag _ => stepInsert s "head" [] .inHead false
    | .eof => .stop s
  | .inHead =>
    match tok with
    | .char c =>
      if c = ' ' ∨ c = '\n' then
        let (d, st) := insertChar s.dom s.stack c
        .next { s with dom := d, stack := st } true
      else .next s true
    | .startTag tag attrs _ =>
      if tag = "style" ∨ tag = "script" then
        match insertElement s.dom s.stack tag attrs with
        | none => .fail
        | some (d, st) =>
          .next { s with dom := d, stack := st, origMode := s.mode, mode := .text } true
      else if tag = "body" then
        match popUntil s.dom s.stack .head with
        | none => .fail
        | some st => .next { s with stack := st, mode := .afterHead } false
      else if (ElementKind.fromStr tag).isSome then
        match popUntil s.dom s.stack .head with
        | none => .fail
        | some st => .next { s with stack := st, mode := .afterHead } false
      else .next s true
    | .endTag tag =>
      if tag = "head" then
        match popUntil s.dom s.stack .head with
        | none => .fail
        | some st => .next { s with stack := st, mode := .afterHead } true
      else .next s true
    | .eof => .stop s
  | .afterHead =>
    match tok with
    | .char c =>
      if c = ' ' ∨ c = '\n' then
        let (d, st) := insertChar s.dom s.stack c
        .next { s with dom := d, stack := st } true
      else stepInsert s "body" [] .inBody false
    | .startTag tag attrs _ =>
      if tag = "body" then stepInsert s tag attrs .inBody true
      else stepInsert s "body" [] .inBody false
    | .endTag _ => stepInsert s "body" [] .inBody false
    | .eof => .stop s
  | .inBody =>
    match tok with
    | .startTag tag attrs _ =>
      if tag = "p" ∨ tag = "h1" ∨ tag = "h2" ∨ tag = "a" then
        stepInsert s tag attrs .inBody true
      else .next s true
    | .endTag tag =>
      if tag = "body" then
        if ¬ containInStack s.dom s.stack .body then
          .next { s with mode := .afterBody } true
        else
          match popUntil s.dom s.stack .body with
          | none => .fail
          | some st => .next { s with stack := st, mode := .afterBody } true
      else if tag = "html" then
        match popCurrentNode s.dom s.stack .body with
        | (true, st1) =>
          match popCurrentNode s.dom st1 .html with
          | (true, st2) => .next { s with stack := st2, mode := .afterBody } false
          | (false, _) => .fail
        | (false, _) => .next s true
      else if tag = "p" ∨ tag = "h1" ∨ tag = "h2" ∨ tag = "a" then
        match ElementKind.fromStr tag with
        | none => .fail
        | some k =>
          match popUntil s.dom s.stack k with
          | none => .fail
          | some st => .next { s with stack := st } true
      else .next s true
    | .char c =>
      let (d, st) := insertChar s.dom s.stack c
      .next { s with dom := d, stack := st } true
    | .eof => .stop s
  | .text =>
    match tok with
    | .eof => .stop s
    | .endTag tag =>
      let popped : Option (List Nat) :=
        if tag = "style" then popUntil s.dom s.stack .style
        else if tag = "script" then popUntil s.dom s.stack .script
        else some s.stack
      match popped with
      | none => .fail
      | some st => .next { s with stack := st, mode := s.origMode } true
    | .char c =>
      let (d, st) := insertChar s.dom s.stack c
      .next { s with dom := d, stack := st } true
    | _ => .next { s with mode := s.origMode } false
  | .afterBody =>
    match tok with
    | .char _ => .next s true
    | .endTag tag =>
      if tag = "html" then .next { s with mode := .afterAfterBody } true
      else .next { s with mode := .inBody } false
    | .eof => .stop s
    | _ => .next { s with mode := .inBody } false
  | .afterAfterBody =>
    match tok with
    | .char _ => .next s true
    | .eof => .stop s
    | _ => .next { s with mode := .inBody } false

/-- The construct_tree loop over a finite token list (an empty list is
the tokenizer returning None, which exits the while loop).  A
non-consuming dispatch re-processes the same token; the fuel bounds the
number of dispatches and models the (finitely many) re-dispatches of the
source; fuel exhaustion and fatal dispatches are both none. -/
def runTokens : Nat → PState → List HtmlToken → Option Dom
  | 0, _, _ => none
  | _ + 1, s, [] => some s.dom
  | fuel + 1, s, t :: rest =>
    match step s t with
    | .next s1 true => runTokens fuel s1 rest
    | .next s1 false => runTokens fuel s1 (t :: rest)
    | .stop s1 => some s1.dom
    | .fail => none

/-- HtmlParser::construct_tree on a token list, with fuel amply covering
the bounded re-dispatches (each token is re-dispatched at most a handful
of times before being consumed). -/
def constructTree (toks : List HtmlToken) : Option Dom :=
  runTokens ((toks.length + 1) * 32) PState.initial toks

/-! ## Specification-side definitions

Definitions in this section follow the wording of the specification and
of the claims, to be compared against the source-side definitions
above. -/

/-- Take the first of two optional values when it is present, the second
otherwise (the overwrite cascade reads right to left through this). -/
def optOr (a b : Option α) : Option α :=
  match a with
  | some v => some v
  | none => b

/-- The last value a projection extracts from a declaration list: later
declarations overwrite earlier ones. -/
def lastApplied (f : Declaration → Option α) (ds : List Declaration) : Option α :=
  ds.foldl (fun acc d => match f d with | some v => some v | none => acc) none

/-- The declarations of all rules matching a node, in sheet order. -/
def matchedDeclarations (nk : NodeKind) (rules : List QualifiedRule) : List Declaration :=
  (rules.filter (fun r => isNodeSelected nk r.selector)).foldr
    (fun r acc => r.declarations ++ acc) []

/-- The background-color value a declaration applies, if any: a named
color (fallback white) for identifier values, a coded color (fallback
white) for hash values, nothing for other value shapes or other
properties. -/
def bgValue (d : Declaration) : Option Color :=
  if d.property = "background-color" then
    match d.value with
    | .ident v => some ((Color.fromName v).getD Color.white)
    | .hashToken v => some ((Color.fromCode v).getD Color.white)
    | _ => none
  else none

/-- The color value a declaration applies, if any (fallback black). -/
def colorValue (d : Declaration) : Option Color :=
  if d.property = "color" then
    match d.value with
    | .ident v => some ((Color.fromName v).getD Color.black)
    | .hashToken v => some ((Color.fromCode v).getD Color.black)
    | _ => none
  else none

/-- The display value a declaration applies, if any (fallback none). -/
def displayValue (d : Declaration) : Option DisplayType :=
  if d.property = "display" then
    match d.value with
    | .ident v => some ((DisplayType.fromStr v).getD .displayNone)
    | _ => none
  else none

/-- Claim C6 wording of a Block's height: sum the heights of exactly
those children that are themselves Block or are adjacent to a Block
sibling (on either side); the first argument is the kind of the previous
sibling, none at the front of the list. -/
def blockHeightPerSpecGo : Option LayoutObjectKind →
    List (LayoutObjectKind × LayoutSize) → Nat
  | _, [] => 0
  | prev, c :: rest =>
    let nextIsBlock : Bool := match rest with
      | d :: _ => d.1 = LayoutObjectKind.block
      | [] => false
    (if c.1 = LayoutObjectKind.block ∨ prev = some LayoutObjectKind.block ∨ nextIsBlock
      then c.2.height else 0)
    + blockHeightPerSpecGo (some c.1) rest

/-- Claim C6 wording of a Block's height, over a full child list. -/
def blockHeightPerSpec (children : List (LayoutObjectKind × LayoutSize)) : Nat :=
  blockHeightPerSpecGo none children

/-- The amended description of the child-height loop: a child counts
exactly when it is Block or the child before it is Block, with the first
child always counting (the loop's previous-kind accumulator starts as
Block). -/
def amendedBlockHeightGo : LayoutObjectKind →
    List (LayoutObjectKind × LayoutSize) → Nat
  | _, [] => 0
  | prev, c :: rest =>
    (if prev = LayoutObjectKind.block ∨ c.1 = LayoutObjectKind.block then c.2.height else 0)
    + amendedBlockHeightGo c.1 rest

/-- The amended Block height, starting with the Block previous-kind. -/
def amendedBlockHeight (children : List (LayoutObjectKind × LayoutSize)) : Nat :=
  amendedBlockHeightGo LayoutObjectKind.block children

/-- Claim C3 wording of a wrapped Text object's height: the line count of
the space-based splitting that paint re-runs, times the size ratio, times
the line height with padding. -/
def textHeightPerClaim (st : ComputedStyle) (t : String) : Nat :=
  (splitText (normalizeText t.toList) (CHAR_WIDTH * fontSizeFactor st)).length
    * fontSizeFactor st * CHAR_HEIGHT_WITH_PADDING

/-- Whether a node kind is a text node. -/
def NodeKind.isText : NodeKind → Bool
  | .text _ => true
  | _ => false

/-- The PartialEq implementation of Node from dom/node.rs: two nodes are
equal exactly when their kinds are (the link fields never take part). -/
def pnodeBeq (n1 n2 : PNode) : Bool :=
  nodeKindBeq n1.kind n2.kind

/-! ## Concrete fixtures used by witnesses and counterexamples -/

/-- The style sheet of the hidden-class scenario from the repository
tests: one rule, `.hidden` with display none. -/
def hiddenSheet : StyleSheet :=
  ⟨[⟨.classSelector "hidden", [⟨"display", .ident "none"⟩]⟩]⟩

/-- The node kind of an anchor element carrying class hidden. -/
def hiddenAKind : NodeKind := .element ⟨.a, [⟨"class", "hidden"⟩]⟩

/-- The sibling chain after the hidden anchor: a plain paragraph followed
by a hidden paragraph with an anchor/text subtree. -/
def hiddenASiblings : DomTree :=
  .node (.element ⟨.p, []⟩) .nil
    (.node (.element ⟨.p, [⟨"class", "hidden"⟩]⟩)
      (.node (.element ⟨.a, []⟩) (.node (.text "link2") .nil .nil) .nil) .nil)

/-- The hidden anchor with its text child and the sibling chain above. -/
def hiddenATree : DomTree :=
  .node hiddenAKind (.node (.text "link1") .nil .nil) hiddenASiblings

/-- A resolved inline style (white background, black text, display
inline, medium font, no decoration). -/
def inlineStyle : ComputedStyle :=
  ⟨some Color.white, some Color.black, some .inline, some .medium, some .noDecoration⟩

/-- A resolved block style. -/
def blockStyle : ComputedStyle :=
  ⟨some Color.white, some Color.black, some .block, some .medium, some .noDecoration⟩

/-- The counterexample layout tree for claim C6: a block body whose
children are an inline anchor of height 20, an inline anchor of height 40
(two stacked text children) and a block paragraph of height 20. -/
def c6CounterTree : LayoutTree :=
  .node .block (.element ⟨.body, []⟩) blockStyle
    (.node .inline (.element ⟨.a, []⟩) inlineStyle
      (.node .text (.text "ab") inlineStyle .nil .nil)
      (.node .inline (.element ⟨.a, []⟩) inlineStyle
        (.node .text (.text "ab") inlineStyle .nil
          (.node .text (.text "cd") inlineStyle .nil .nil))
        (.node .block (.element ⟨.p, []⟩) blockStyle
          (.node .text (.text "ef") blockStyle .nil .nil) .nil)))
    .nil

/-- A 74-character single-word text: its measured width 8 × 74 = 592
exceeds the content-area width 590, while the split that paint runs keeps
it on one line (592 ≤ 605). -/
def longWord : String := String.mk (List.replicate 74 'a')

/-- The token stream of `<html><head></head><body>` followed by an end
tag for a paragraph that was never opened. -/
def c4Tokens : List HtmlToken :=
  [.startTag "html" [] false, .startTag "head" [] false, .endTag "head",
   .startTag "body" [] false, .endTag "p"]

/-- A parser state in insertion mode BeforeHtml over the initial arena. -/
def beforeHtmlState : PState :=
  ⟨Dom.initial, [], .beforeHtml, .initial⟩

/-- The arena of the C9 witness: a document root with two element
children (a paragraph and a heading) already linked. -/
def c9Dom : Dom :=
  ⟨[{ kind := .document, firstChild := some 1, lastChild := some 2 },
    { kind := .element ⟨.p, []⟩, parent := some 0, nextSibling := some 2 },
    { kind := .element ⟨.h1, []⟩, parent := some 0, prevSibling := some 1 }]⟩

/-- The arena after synthesizing an html element below the empty
document (the result of inserting html into the initial arena with an
empty stack). -/
def htmlOnlyDom : Dom :=
  ⟨[{ kind := .document, firstChild := some 1, lastChild := some 1 },
    { kind := .element ⟨.html, []⟩, parent := some 0 }]⟩

deriving instance DecidableEq for Except

/-! ## Theorems -/

/-- Claim C8: node equality is decided by node kind alone — two nodes are
equal exactly when both are Document, both are Elements with the same tag
kind (attributes ignored), or both are Text (content ignored); the link
fields of a node never influence equality. -/
theorem claim_C8_node_equality :
    (∀ a b : NodeKind, nodeKindBeq a b = true ↔
      ((a = NodeKind.document ∧ b = NodeKind.document)
        ∨ (∃ e1 e2, a = NodeKind.element e1 ∧ b = NodeKind.element e2 ∧ e1.kind = e2.kind)
        ∨ (∃ s1 s2, a = NodeKind.text s1 ∧ b = NodeKind.text s2)))
    ∧ (∀ n1 n2 m1 m2 : PNode, n1.kind = m1.kind → n2.kind = m2.kind →
        pnodeBeq n1 n2 = pnodeBeq m1 m2) := by
  constructor
  · intro a b
    cases a <;> cases b <;> simp [nodeKindBeq]
  · intro n1 n2 m1 m2 h1 h2
    simp [pnodeBeq, h1, h2]

/-- Claim C10: the CSS tokenizer aborts (out-of-bounds index) when the
final characters of the input form an identifier or string token reaching
exactly the end of the input, e.g. on the whole input red; the same token
followed by a further delimiter is returned normally. -/
theorem claim_C10_eof_abort :
    tokenizeCss "red" = .error .index
    ∧ tokenizeCss "red;" = .ok [.ident "red", .semiColon]
    ∧ tokenizeCss "\"ab" = .error .index := by
  refine ⟨by decide, by decide, by decide⟩

/-- Claim C7: the claim (and the comment in the source) say fractional
digits are accumulated with shrinking sub-unit weights, so 1.5 should
tokenize to a value strictly between 1 and 2; the code instead grows the
weight by one tenth per fractional digit starting from 1, so 1.5
tokenizes to 1 + 5 × 1.1 = 6.5, which is not between 1 and 2. -/
theorem claim_C7_fractional_accumulation :
    tokenizeCss "1.5" = .ok [CssToken.number (13 / 2)]
    ∧ ¬ ((1 : Rat) < 13 / 2 ∧ (13 : Rat) / 2 < 2) := by
  constructor
  · simp [tokenizeCss, tokenizeCssGo, cssNext, cssNextGo, consumeNumericToken, consumeNumericGo]
    norm_num
  · norm_num

/-- The pop loop of pop_until, characterized: when an element of the
requested kind is on the stack, the stack splits as the popped prefix,
the topmost element of that kind, and the untouched remainder. -/
theorem popUntilLoop_spec (dom : Dom) (k : ElementKind) :
    ∀ stack : List Nat, containInStack dom stack k = true →
      ∃ pre i post, stack = pre ++ i :: post ∧ dom.elementKindAt i = some k
        ∧ (∀ j ∈ pre, ¬ dom.elementKindAt j = some k)
        ∧ popUntilLoop dom stack k = post := by
  intro stack
  induction stack with
  | nil => intro h; simp [containInStack] at h
  | cons a rest ih =>
    intro h
    by_cases ha : dom.elementKindAt a = some k
    · exact ⟨[], a, rest, rfl, ha, by simp, by simp [popUntilLoop, ha]⟩
    · have h' : containInStack dom rest k = true := by
        simp only [containInStack, List.any_cons, Bool.or_eq_true, decide_eq_true_eq] at h ⊢
        rcases h with h | h
        · exact absurd h ha
        · exact h
      obtain ⟨pre, i, post, he, hk, hpre, hloop⟩ := ih h'
      refine ⟨a :: pre, i, post, by simp [he], hk, ?_, by simp [popUntilLoop, ha, hloop]⟩
      intro j hj
      rcases List.mem_cons.mp hj with hj | hj
      · subst hj; exact ha
      · exact hpre j hj

/-- Claim C4: pop_until on a stack containing the requested kind removes
entries from the top until the topmost element of that kind has been
removed and leaves everything below it unchanged; on a stack without that
kind it is a fatal assertion failure; and such a call is reached through
InBody processing of an end tag for an element that is not open (the
concrete token stream c4Tokens, whose construction aborts). -/
theorem claim_C4_pop_until :
    (∀ (dom : Dom) (stack : List Nat) (k : ElementKind),
      containInStack dom stack k = true →
      ∃ pre i post, stack = pre ++ i :: post ∧ dom.elementKindAt i = some k
        ∧ (∀ j ∈ pre, ¬ dom.elementKindAt j = some k)
        ∧ popUntil dom stack k = some post)
    ∧ (∀ (dom : Dom) (stack : List Nat) (k : ElementKind),
      containInStack dom stack k = false → popUntil dom stack k = none)
    ∧ constructTree c4Tokens = none := by
  refine ⟨?_, ?_, by decide⟩
  · intro dom stack k h
    obtain ⟨pre, i, post, he, hk, hpre, hloop⟩ := popUntilLoop_spec dom k stack h
    exact ⟨pre, i, post, he, hk, hpre, by simp [popUntil, h, hloop]⟩
  · intro dom stack k h
    simp [popUntil, h]

/-- Claim C4 witness: on the concrete three-node arena with the stack
holding the heading above the paragraph, popping until a paragraph splits
off the heading and leaves the rest, and popping until a body (not on the
stack) is the fatal case. -/
theorem claim_C4_witness :
    (∃ pre i post, ([2, 1] : List Nat) = pre ++ i :: post
      ∧ c9Dom.elementKindAt i = some ElementKind.p
      ∧ (∀ j ∈ pre, ¬ c9Dom.elementKindAt j = some ElementKind.p)
      ∧ popUntil c9Dom [2, 1] ElementKind.p = some post)
    ∧ popUntil c9Dom [2, 1] ElementKind.body = none :=
  ⟨claim_C4_pop_until.1 c9Dom [2, 1] ElementKind.p (by decide),
   claim_C4_pop_until.2.1 c9Dom [2, 1] ElementKind.body (by decide)⟩

/-- Claim C5 counterexample: in mode BeforeHtml an end-tag token is
consumed and ignored without synthesizing an html element (the guard of
the end-tag arm is a disjunction of inequalities and always holds), so
parsing an end tag alone leaves the document childless — against the
claim, under which the html element would have been inserted and the
token re-processed. -/
theorem claim_C5_counterexample :
    step beforeHtmlState (.endTag "p") = .next beforeHtmlState true
    ∧ constructTree [.endTag "p", .eof] = some Dom.initial
    ∧ Dom.initial.nodes.length = 1 := by
  refine ⟨by decide, by decide, by decide⟩

/-- Claim C5 amended: in mode BeforeHtml, whitespace character tokens are
consumed and ignored; an html start tag is inserted itself and consumed;
EOF ends construction; every NON-whitespace character token and every
non-html START tag synthesizes an html element and moves to BeforeHead
without consuming the token; but an end-tag token (any name) is consumed
and ignored without synthesizing anything. -/
theorem claim_C5_amended (s : PState) (hm : s.mode = .beforeHtml) :
    (∀ tag, step s (.endTag tag) = .next s true)
    ∧ (∀ c, (c = ' ' ∨ c = '\n') → step s (.char c) = .next s true)
    ∧ (∀ c d st, ¬ (c = ' ' ∨ c = '\n') →
        insertElement s.dom s.stack "html" [] = some (d, st) →
        step s (.char c) = .next { s with dom := d, stack := st, mode := .beforeHead } false)
    ∧ (∀ tag attrs sc d st, ¬ tag = "html" →
        insertElement s.dom s.stack "html" [] = some (d, st) →
        step s (.startTag tag attrs sc) = .next { s with dom := d, stack := st, mode := .beforeHead } false)
    ∧ (∀ attrs sc d st, insertElement s.dom s.stack "html" attrs = some (d, st) →
        step s (.startTag "html" attrs sc) = .next { s with dom := d, stack := st, mode := .beforeHead } true)
    ∧ step s .eof = .stop s := by
  refine ⟨?_, ?_, ?_, ?_, ?_, ?_⟩
  · intro tag
    have hguard : ¬ tag = "head" ∨ ¬ tag = "body" ∨ ¬ tag = "html" ∨ ¬ tag = "br" := by
      by_cases h : tag = "head"
      · subst h; right; left; decide
      · exact Or.inl h
    simp [step, hm, hguard]
  · intro c hc
    simp [step, hm, hc]
  · intro c d st hc hins
    simp [step, hm, hc, stepInsert, hins]
  · intro tag attrs sc d st ht hins
    simp [step, hm, ht, stepInsert, hins]
  · intro attrs sc d st hins
    simp [step, hm, stepInsert, hins]
  · simp [step, hm]

/-- Claim C5 witness: the amended behavior at the concrete BeforeHtml
state over the initial arena — an end tag is swallowed, a plain character
synthesizes html into the arena without consuming, EOF stops. -/
theorem claim_C5_witness :
    beforeHtmlState.mode = .beforeHtml
    ∧ step beforeHtmlState (.endTag "h1") = .next beforeHtmlState true
    ∧ (insertElement beforeHtmlState.dom beforeHtmlState.stack "html" [] = some (htmlOnlyDom, [1])
        ∧ step beforeHtmlState (.char 'x') =
          .next { beforeHtmlState with dom := htmlOnlyDom, stack := [1], mode := .beforeHead } false)
    ∧ step beforeHtmlState .eof = .stop beforeHtmlState :=
  ⟨rfl,
   (claim_C5_amended beforeHtmlState rfl).1 "h1",
   ⟨by decide,
    (claim_C5_amended beforeHtmlState rfl).2.2.1 'x' htmlOnlyDom [1] (by decide) (by decide)⟩,
   (claim_C5_amended beforeHtmlState rfl).2.2.2.2.2⟩

/-- When a node is neither a Document nor suppressed by display none,
create_layout_object produces an object carrying the resolved style. -/
theorem createLayoutObject_some {nk : NodeKind} {ps : Option ComputedStyle} {sheet : StyleSheet}
    (h1 : ¬ nk = NodeKind.document)
    (h2 : ¬ (resolvedStyle nk ps sheet).display = some DisplayType.displayNone) :
    ∃ lk, createLayoutObject nk ps sheet = some (lk, resolvedStyle nk ps sheet) := by
  unfold createLayoutObject
  rw [if_neg h2]
  cases nk with
  | document => exact absurd rfl h1
  | text s => exact ⟨.text, rfl⟩
  | element e =>
    obtain ⟨d, hd⟩ : ∃ d, (resolvedStyle (NodeKind.element e) ps sheet).display = some d := ⟨_, rfl⟩
    cases d with
    | block => exact ⟨.block, by simp [updateKind, hd]⟩
    | inline => exact ⟨.inline, by simp [updateKind, hd]⟩
    | displayNone => exact absurd hd h2

/-- Claim C1: a node whose resolved display is none yields, together with
its whole subtree, no layout object — building from it is the same as
building from its next sibling (with the same parent), so its paint
output is also identical and a non-suppressed next sibling takes exactly
the tree position the suppressed node would have occupied.  (The
Document-node exclusion in the third part only rules out the panic path
of update_kind, which cannot occur below a body element.) -/
theorem claim_C1_display_none_excision (fuel : Nat) (k : NodeKind) (fc ns : DomTree)
    (ps : Option ComputedStyle) (sheet : StyleSheet)
    (h : (resolvedStyle k ps sheet).display = some DisplayType.displayNone) :
    buildGo (fuel + 1) false (.node k fc ns) ps sheet = buildGo fuel false ns ps sheet
    ∧ renderOf (buildGo (fuel + 1) false (.node k fc ns) ps sheet)
        = renderOf (buildGo fuel false ns ps sheet)
    ∧ (∀ k2 fc2 ns2, ns = DomTree.node k2 fc2 ns2 →
        ¬ (resolvedStyle k2 ps sheet).display = some DisplayType.displayNone →
        ¬ k2 = NodeKind.document →
        ∃ lk fcL nsL, buildGo (fuel + 2) false (.node k fc ns) ps sheet
          = LayoutTree.node lk k2 (resolvedStyle k2 ps sheet) fcL nsL) := by
  have hc : createLayoutObject k ps sheet = none := by
    simp [createLayoutObject, h]
  have skip : ∀ f : Nat, buildGo (f + 1) false (.node k fc ns) ps sheet = buildGo f false ns ps sheet := by
    intro f
    simp [buildGo, hc]
  refine ⟨skip fuel, by rw [skip fuel], ?_⟩
  intro k2 fc2 ns2 hns hd2 hdoc
  obtain ⟨lk, hcreate2⟩ := createLayoutObject_some hdoc hd2
  rw [skip (fuel + 1), hns]
  simp [buildGo, hcreate2]

/-- Claim C1 witness: the hidden-class scenario — the anchor with class
hidden resolves to display none, building from it equals building from
its sibling chain, the paint output agrees, and the plain paragraph
sibling becomes the root of the subtree built at that position. -/
theorem claim_C1_witness :
    (resolvedStyle hiddenAKind none hiddenSheet).display = some DisplayType.displayNone
    ∧ buildGo 21 false hiddenATree none hiddenSheet = buildGo 20 false hiddenASiblings none hiddenSheet
    ∧ renderOf (buildGo 21 false hiddenATree none hiddenSheet)
        = renderOf (buildGo 20 false hiddenASiblings none hiddenSheet)
    ∧ (∃ lk fcL nsL, buildGo 22 false hiddenATree none hiddenSheet
        = LayoutTree.node lk (.element ⟨.p, []⟩)
            (resolvedStyle (.element ⟨.p, []⟩) none hiddenSheet) fcL nsL) :=
  have hmain := claim_C1_display_none_excision 20 hiddenAKind
    (.node (.text "link1") .nil .nil) hiddenASiblings none hiddenSheet (by decide)
  ⟨by decide, hmain.1, hmain.2.1,
   hmain.2.2 (.element ⟨.p, []⟩) .nil
     (.node (.element ⟨.p, [⟨"class", "hidden"⟩]⟩)
       (.node (.element ⟨.a, []⟩) (.node (.text "link2") .nil .nil) .nil) .nil)
     rfl (by decide) (by decide)⟩

/-- The pair-state fold of the Block height loop, unrolled against the
previous-kind recursion. -/
theorem blockChildrenHeight_go (cs : List (LayoutObjectKind × LayoutSize)) :
    ∀ (acc : Nat) (prev : LayoutObjectKind),
      (cs.foldl
        (fun acc c =>
          (acc.1 + (if acc.2 = LayoutObjectKind.block ∨ c.1 = LayoutObjectKind.block then c.2.height else 0),
           c.1))
        (acc, prev)).1 = acc + amendedBlockHeightGo prev cs := by
  induction cs with
  | nil => intro acc prev; simp [amendedBlockHeightGo]
  | cons c rest ih =>
    intro acc prev
    simp only [List.foldl_cons, amendedBlockHeightGo, ih]
    omega

/-- The Block child-height loop counts exactly the children that are
Block or follow a Block, the first child always included. -/
theorem blockChildrenHeight_eq_amended (cs : List (LayoutObjectKind × LayoutSize)) :
    blockChildrenHeight cs = amendedBlockHeight cs := by
  have := blockChildrenHeight_go cs 0 LayoutObjectKind.block
  simpa [blockChildrenHeight, amendedBlockHeight] using this

/-- Claim C6 counterexample: a block with children of kinds and computed
sizes inline 20, inline 40, block 20 gets height 40 from the size pass
(first child 20 plus the block 20; the middle inline child does not
count), while the claim's rule — count children that are Block or
adjacent to a Block sibling — yields 60 (the middle inline child is
adjacent to the following block and would count, the first would not). -/
theorem claim_C6_counterexample :
    (sizeCalc c6CounterTree ⟨590, 0⟩).size? = some ⟨590, 40⟩
    ∧ (sizeCalc c6CounterTree ⟨590, 0⟩).childKindSizes
        = [(.inline, ⟨16, 20⟩), (.inline, ⟨32, 40⟩), (.block, ⟨590, 20⟩)]
    ∧ blockHeightPerSpec [(.inline, ⟨16, 20⟩), (.inline, ⟨32, 40⟩), (.block, ⟨590, 20⟩)] = 60
    ∧ ¬ (40 : Nat) = 60 := by
  refine ⟨by decide, by decide, by decide, by decide⟩

/-- Claim C6 amended: in the size pass a Block object gets the parent
content width, and a height summing the heights of exactly those children
that are themselves Block or whose previous sibling is Block, with the
first child always counted (the loop's previous-kind starts as Block); a
child whose only Block neighbor follows it does not contribute. -/
theorem claim_C6_amended (nk : NodeKind) (st : ComputedStyle) (fc ns : LayoutTree)
    (ps : LayoutSize) :
    ∃ fcS nsS, sizeCalc (LayoutTree.node .block nk st fc ns) ps
      = SizedTree.node .block nk st ⟨ps.width, amendedBlockHeight (siblingKindSizes fcS)⟩ fcS nsS := by
  refine ⟨sizeCalc fc (computeSize .block nk st ((siblingChainKinds fc).map (fun x => (x, ⟨0, 0⟩))) ps),
    sizeCalc ns ps, ?_⟩
  simp only [sizeCalc, computeSize, reduceIte]
  rw [blockChildrenHeight_eq_amended]

/-- Claim C3 counterexample: the 74-character single word measures
8 × 74 = 592 > 590, so the size pass charges 2 lines — height 40 — while
the space-based splitting the claim prescribes (and paint re-runs) keeps
it on one line: the claim predicts height 1 × 1 × 20 = 20 and equal line
counts, but the code computes 40 and paints a single item. -/
theorem claim_C3_counterexample :
    computeSize .text (.text longWord) inlineStyle [] ⟨CONTENT_AREA_WIDTH, 0⟩ = ⟨590, 40⟩
    ∧ textHeightPerClaim inlineStyle longWord = 20
    ∧ (paintObject .text (.text longWord) inlineStyle ⟨0, 0⟩ ⟨0, 0⟩).length = 1
    ∧ ¬ (40 : Nat) = 20 := by
  refine ⟨by decide, by decide, by decide, by decide⟩

/-- Claim C3 amended: when the measured width (character width × ratio ×
raw character count) exceeds the content-area width, the size pass sets
the width to the content-area width and the height to
ceil(width / content-area width) × ratio × line height — a ceiling
division on the raw length, not the space-based line count; paint
separately normalizes the text, re-runs the space-based splitting, and
emits one Text item per resulting line, the i-th offset vertically by
i × line height; the two line counts need not agree. -/
theorem claim_C3_amended (st : ComputedStyle) (t : String)
    (hw : CHAR_WIDTH * fontSizeFactor st * t.length > CONTENT_AREA_WIDTH)
    (hd : ¬ st.display = some DisplayType.displayNone) :
    (∀ children ps, computeSize .text (.text t) st children ps
      = ⟨CONTENT_AREA_WIDTH,
         ((CHAR_WIDTH * fontSizeFactor st * t.length + CONTENT_AREA_WIDTH - 1) / CONTENT_AREA_WIDTH)
           * fontSizeFactor st * CHAR_HEIGHT_WITH_PADDING⟩)
    ∧ (∀ pt sz, (paintObject .text (.text t) st pt sz).length
        = (splitText (normalizeText t.toList) (CHAR_WIDTH * fontSizeFactor st)).length)
    ∧ (∀ pt sz i (hi : i < (paintObject .text (.text t) st pt sz).length),
        ((paintObject .text (.text t) st pt sz).get ⟨i, hi⟩).point
          = ⟨pt.x, pt.y + CHAR_HEIGHT_WITH_PADDING * i⟩) := by
  refine ⟨?_, ?_, ?_⟩
  · intro children ps
    have hln : ∀ w : Nat, (if w % CONTENT_AREA_WIDTH = 0
        then w / CONTENT_AREA_WIDTH else w / CONTENT_AREA_WIDTH + 1)
        = (w + CONTENT_AREA_WIDTH - 1) / CONTENT_AREA_WIDTH := by
      intro w
      unfold CONTENT_AREA_WIDTH
      by_cases hmod : w % 590 = 0
      · simp only [hmod, reduceIte]
        omega
      · simp only [hmod, reduceIte]
        omega
    simp only [computeSize, if_pos hw, hln]
  · intro pt sz
    simp [paintObject, hd]
  · intro pt sz i hi
    simp [paintObject, hd, DisplayItem.point, List.get_eq_getElem, List.getElem_map,
      List.getElem_enum]

/-- Claim C3 witness: the amended statement at the 74-character word with
the medium-font inline style. -/
theorem claim_C3_witness :
    CHAR_WIDTH * fontSizeFactor inlineStyle * longWord.length > CONTENT_AREA_WIDTH
    ∧ computeSize .text (.text longWord) inlineStyle [] ⟨CONTENT_AREA_WIDTH, 0⟩
        = ⟨CONTENT_AREA_WIDTH,
           ((CHAR_WIDTH * fontSizeFactor inlineStyle * longWord.length + CONTENT_AREA_WIDTH - 1)
              / CONTENT_AREA_WIDTH) * fontSizeFactor inlineStyle * CHAR_HEIGHT_WITH_PADDING⟩
    ∧ (paintObject .text (.text longWord) inlineStyle ⟨0, 0⟩ ⟨0, 0⟩).length
        = (splitText (normalizeText longWord.toList) (CHAR_WIDTH * fontSizeFactor inlineStyle)).length :=
  ⟨by decide,
   (claim_C3_amended inlineStyle longWord (by decide) (by decide)).1 [] ⟨CONTENT_AREA_WIDTH, 0⟩,
   (claim_C3_amended inlineStyle longWord (by decide) (by decide)).2.1 ⟨0, 0⟩ ⟨0, 0⟩⟩


/-- optOr with an absent first value. -/
theorem optOr_none_left (b : Option α) : optOr none b = b := rfl

/-- optOr with an absent second value. -/
theorem optOr_none_right (a : Option α) : optOr a none = a := by
  cases a <;> rfl

/-- optOr is associative. -/
theorem optOr_assoc (a b c : Option α) : optOr (optOr a b) c = optOr a (optOr b c) := by
  cases a <;> rfl

/-- lastApplied written through optOr. -/
theorem lastApplied_eq (f : Declaration → Option α) (ds : List Declaration) :
    lastApplied f ds = ds.foldl (fun acc d => optOr (f d) acc) none := by
  have : (fun (acc : Option α) d => match f d with | some v => some v | none => acc)
      = fun (acc : Option α) d => optOr (f d) acc := by
    funext acc d; cases f d <;> rfl
  simp only [lastApplied, this]

/-- The overwrite fold over any seed factors through the empty seed. -/
theorem lastApplied_foldl (f : Declaration → Option α) :
    ∀ (ds : List Declaration) (acc : Option α),
      ds.foldl (fun acc d => optOr (f d) acc) acc
        = optOr (ds.foldl (fun acc d => optOr (f d) acc) none) acc := by
  intro ds
  induction ds with
  | nil => intro acc; rfl
  | cons d ds ih =>
    intro acc
    simp only [List.foldl_cons]
    rw [ih (optOr (f d) acc), ih (optOr (f d) none), optOr_assoc, optOr_assoc, optOr_none_left]

/-- lastApplied over a cons: the head only matters when the tail
applies nothing. -/
theorem lastApplied_cons (f : Declaration → Option α) (d : Declaration) (ds : List Declaration) :
    lastApplied f (d :: ds) = optOr (lastApplied f ds) (f d) := by
  rw [lastApplied_eq, lastApplied_eq, List.foldl_cons, lastApplied_foldl]
  rw [show optOr (f d) none = f d from optOr_none_right _]

/-- lastApplied over an append: the later list wins. -/
theorem lastApplied_append (f : Declaration → Option α) (xs ys : List Declaration) :
    lastApplied f (xs ++ ys) = optOr (lastApplied f ys) (lastApplied f xs) := by
  rw [lastApplied_eq, lastApplied_eq, lastApplied_eq, List.foldl_append, lastApplied_foldl]

/-- cascading_style stores, per property, the last applied value of the
declaration list, keeping the prior value when none applies. -/
theorem cascadingStyle_field (field : ComputedStyle → Option α) (fval : Declaration → Option α)
    (hf : ∀ st d, field (declEffect st d) = optOr (fval d) (field st)) :
    ∀ (ds : List Declaration) (st : ComputedStyle),
      field (cascadingStyle st ds) = optOr (lastApplied fval ds) (field st) := by
  intro ds
  induction ds with
  | nil => intro st; simp [cascadingStyle, lastApplied, optOr_none_left]
  | cons d ds ih =>
    intro st
    simp only [cascadingStyle, List.foldl_cons] at ih ⊢
    rw [ih (declEffect st d), hf, lastApplied_cons, optOr_assoc]

/-- The rule loop of create_layout_object stores, per property, the last
applied value among the declarations of the matching rules, in sheet
order, regardless of the selector variants involved. -/
theorem cascadeRules_field (field : ComputedStyle → Option α) (fval : Declaration → Option α)
    (hf : ∀ st d, field (declEffect st d) = optOr (fval d) (field st)) (nk : NodeKind) :
    ∀ (rules : List QualifiedRule) (st : ComputedStyle),
      field (cascadeRules nk rules st)
        = optOr (lastApplied fval (matchedDeclarations nk rules)) (field st) := by
  intro rules
  induction rules with
  | nil => intro st; rfl
  | cons r rs ih =>
    intro st
    by_cases hsel : isNodeSelected nk r.selector = true
    · have h1 : cascadeRules nk (r :: rs) st = cascadeRules nk rs (cascadingStyle st r.declarations) := by
        simp [cascadeRules, hsel]
      have h2 : matchedDeclarations nk (r :: rs) = r.declarations ++ matchedDeclarations nk rs := by
        simp [matchedDeclarations, List.filter_cons, hsel]
      rw [h1, ih, cascadingStyle_field field fval hf, h2, lastApplied_append, optOr_assoc]
    · have h1 : cascadeRules nk (r :: rs) st = cascadeRules nk rs st := by
        simp [cascadeRules, hsel]
      have h2 : matchedDeclarations nk (r :: rs) = matchedDeclarations nk rs := by
        simp [matchedDeclarations, List.filter_cons, hsel]
      rw [h1, ih, h2]

/-- One declaration and the background-color field. -/
theorem declEffect_backgroundColor (st : ComputedStyle) (d : Declaration) :
    (declEffect st d).backgroundColor = optOr (bgValue d) st.backgroundColor := by
  by_cases h1 : d.property = "background-color"
  · simp only [declEffect, bgValue, if_pos h1]
    cases d.value <;> simp [ComputedStyle.setBackgroundColor, optOr]
  · by_cases h2 : d.property = "color"
    · simp only [declEffect, bgValue, if_neg h1, if_pos h2]
      cases d.value <;> simp [ComputedStyle.setColor, optOr]
    · by_cases h3 : d.property = "display"
      · simp only [declEffect, bgValue, if_neg h1, if_neg h2, if_pos h3]
        cases d.value <;> simp [ComputedStyle.setDisplay, optOr]
      · simp [declEffect, bgValue, h1, h2, h3, optOr]

/-- One declaration and the color field. -/
theorem declEffect_color (st : ComputedStyle) (d : Declaration) :
    (declEffect st d).color = optOr (colorValue d) st.color := by
  by_cases h1 : d.property = "background-color"
  · have h2 : ¬ d.property = "color" := by rw [h1]; decide
    simp only [declEffect, colorValue, if_pos h1, if_neg h2]
    cases d.value <;> simp [ComputedStyle.setBackgroundColor, optOr]
  · by_cases h2 : d.property = "color"
    · simp only [declEffect, colorValue, if_neg h1, if_pos h2]
      cases d.value <;> simp [ComputedStyle.setColor, optOr]
    · by_cases h3 : d.property = "display"
      · simp only [declEffect, colorValue, if_neg h1, if_neg h2, if_pos h3]
        cases d.value <;> simp [ComputedStyle.setDisplay, optOr]
      · simp [declEffect, colorValue, h1, h2, h3, optOr]

/-- One declaration and the display field. -/
theorem declEffect_display (st : ComputedStyle) (d : Declaration) :
    (declEffect st d).display = optOr (displayValue d) st.display := by
  by_cases h1 : d.property = "background-color"
  · have h3 : ¬ d.property = "display" := by rw [h1]; decide
    simp only [declEffect, displayValue, if_pos h1, if_neg h3]
    cases d.value <;> simp [ComputedStyle.setBackgroundColor, optOr]
  · by_cases h2 : d.property = "color"
    · have h3 : ¬ d.property = "display" := by rw [h2]; decide
      simp only [declEffect, displayValue, if_neg h1, if_pos h2, if_neg h3]
      cases d.value <;> simp [ComputedStyle.setColor, optOr]
    · by_cases h3 : d.property = "display"
      · simp only [declEffect, displayValue, if_neg h1, if_neg h2, if_pos h3]
        cases d.value <;> simp [ComputedStyle.setDisplay, optOr]
      · simp [declEffect, displayValue, h1, h2, h3, optOr]

/-- Claim C2: per recognized property, the computed style holds the value
of the last matching rule (in sheet order) that applies a value of the
right shape — rules are applied in order, each applied declaration
overwrites the stored value, and no specificity is compared; after
defaulting, the resolved display is the last applied display value when
one exists and the element-kind default otherwise. -/
theorem claim_C2_last_match_wins (nk : NodeKind) (rules : List QualifiedRule)
    (st0 : ComputedStyle) :
    (cascadeRules nk rules st0).backgroundColor
      = optOr (lastApplied bgValue (matchedDeclarations nk rules)) st0.backgroundColor
    ∧ (cascadeRules nk rules st0).color
      = optOr (lastApplied colorValue (matchedDeclarations nk rules)) st0.color
    ∧ (cascadeRules nk rules st0).display
      = optOr (lastApplied displayValue (matchedDeclarations nk rules)) st0.display
    ∧ (∀ (ps : Option ComputedStyle) (sheet : StyleSheet),
        (resolvedStyle nk ps sheet).display
          = some ((lastApplied displayValue (matchedDeclarations nk sheet.rules)).getD
              (defaultDisplay nk))) := by
  refine ⟨cascadeRules_field _ bgValue declEffect_backgroundColor nk rules st0,
    cascadeRules_field _ colorValue declEffect_color nk rules st0,
    cascadeRules_field _ displayValue declEffect_display nk rules st0, ?_⟩
  intro ps sheet
  have h := cascadeRules_field _ displayValue declEffect_display nk sheet.rules ComputedStyle.new
  have hnew : (ComputedStyle.new).display = none := rfl
  rw [hnew, optOr_none_right] at h
  show some ((cascadeRules nk sheet.rules ComputedStyle.new).display.getD (defaultDisplay nk)) = _
  rw [h]



/-- Updating a node preserves the arena size. -/
theorem Dom.length_updateAt (d : Dom) (i : Nat) (f : PNode → PNode) :
    (d.updateAt i f).nodes.length = d.nodes.length := by
  unfold Dom.updateAt
  cases hg : d.nodes.get? i
  · rfl
  · simp [List.length_set]

/-- Updating one node leaves the others unchanged. -/
theorem Dom.get?_updateAt_ne (d : Dom) (i j : Nat) (f : PNode → PNode) (hij : ¬ i = j) :
    (d.updateAt i f).nodes.get? j = d.nodes.get? j := by
  unfold Dom.updateAt
  cases hg : d.nodes.get? i
  · rfl
  · exact List.get?_set_ne _ _ hij

/-- Updating a present node stores the updated node. -/
theorem Dom.get?_updateAt_self (d : Dom) (i : Nat) (f : PNode → PNode) (m : PNode)
    (hm : d.nodes.get? i = some m) :
    (d.updateAt i f).nodes.get? i = some (f m) := by
  unfold Dom.updateAt
  rw [hm]
  show (d.nodes.set i (f m)).get? i = some (f m)
  rw [List.get?_set_eq, hm]
  rfl

/-- The chain walk of an absent link is empty. -/
theorem childChainGo_none (d : Dom) : ∀ fuel, childChainGo d fuel none = [] := by
  intro fuel; cases fuel <;> rfl


/-- Claim C9: when insert_char creates a new text node (the top-of-stack
node is not a text node, the character is not a space or newline) while
the current node already has a first child, the new node is linked as the
next sibling of that FIRST child, overwriting its previous next-sibling
link; the parent's first-child link is untouched, its last-child link is
repointed to the new node, and the new node is pushed onto the stack.
Consequently the child chain of the current node becomes exactly [first
child, new node] — every child after the first (when the node had two or
more) is no longer reachable through the first-child/next-sibling
chain. -/
theorem claim_C9_insert_char (dom : Dom) (rest : List Nat) (cur : Nat)
    (c : Char) (curNode : PNode) (c1 : Nat)
    (hcur : dom.nodes.get? cur = some curNode)
    (hkind : curNode.kind.isText = false)
    (hc : ¬ (c = '\n' ∨ c = ' '))
    (hfc : curNode.firstChild = some c1)
    (hc1 : c1 < dom.nodes.length)
    (hcc1 : ¬ cur = c1) :
    (insertChar dom (cur :: rest) c).2 = dom.nodes.length :: cur :: rest
    ∧ ((insertChar dom (cur :: rest) c).1.nodes.get? c1).map (fun m => m.nextSibling)
        = some (some dom.nodes.length)
    ∧ ((insertChar dom (cur :: rest) c).1.nodes.get? cur).map (fun m => (m.firstChild, m.lastChild))
        = some (some c1, some dom.nodes.length)
    ∧ (insertChar dom (cur :: rest) c).1.nodes.get? dom.nodes.length
        = some { kind := .text (String.singleton c), parent := some cur }
    ∧ childChain (insertChar dom (cur :: rest) c).1 cur = [c1, dom.nodes.length]
    ∧ (∀ c2 restC, childChain dom cur = c1 :: c2 :: restC → ¬ c2 = c1 →
        c2 < dom.nodes.length → ¬ c2 ∈ childChain (insertChar dom (cur :: rest) c).1 cur) := by
  have hcurlt : cur < dom.nodes.length := by
    by_contra hlt
    rw [List.get?_eq_none.mpr (Nat.le_of_not_lt hlt)] at hcur
    cases hcur
  obtain ⟨c1node, hc1n⟩ : ∃ x, dom.nodes.get? c1 = some x := by
    cases hg : dom.nodes.get? c1
    · rw [List.get?_eq_none] at hg; omega
    · exact ⟨_, rfl⟩
  have hnecur : ¬ cur = dom.nodes.length := by omega
  have hnec1 : ¬ c1 = dom.nodes.length := by omega
  -- the fully applied mutation sequence
  have hres : insertChar dom (cur :: rest) c
      = ((((Dom.mk (dom.nodes ++ [{ kind := .text (String.singleton c) }])).updateAt c1
            (fun m => { m with nextSibling := some dom.nodes.length })).updateAt cur
            (fun m => { m with lastChild := some dom.nodes.length })).updateAt dom.nodes.length
            (fun m => { m with parent := some cur }),
         dom.nodes.length :: cur :: rest) := by
    have hcur2 : dom.nodes[cur]? = some curNode := by
      rw [← List.get?_eq_getElem?]; exact hcur
    cases hk : curNode.kind with
    | text s => rw [hk] at hkind; simp [NodeKind.isText] at hkind
    | document => simp [insertChar, hcur2, hk, hc, hfc]
    | element e => simp [insertChar, hcur2, hk, hc, hfc]
  set n := dom.nodes.length with hn
  -- node lookups in the appended arena
  have hd1c1 : (Dom.mk (dom.nodes ++ [{ kind := .text (String.singleton c) }])).nodes.get? c1
      = some c1node := by
    show (dom.nodes ++ _).get? c1 = _
    rw [List.get?_append hc1, hc1n]
  have hd1cur : (Dom.mk (dom.nodes ++ [{ kind := .text (String.singleton c) }])).nodes.get? cur
      = some curNode := by
    show (dom.nodes ++ _).get? cur = _
    rw [List.get?_append hcurlt, hcur]
  have hd1n : (Dom.mk (dom.nodes ++ [{ kind := .text (String.singleton c) }])).nodes.get? n
      = some { kind := .text (String.singleton c) } := by
    show (dom.nodes ++ _).get? dom.nodes.length = _
    exact List.get?_concat_length _ _
  -- lookups after the three updates
  have hg_c1 : (insertChar dom (cur :: rest) c).1.nodes.get? c1
      = some { c1node with nextSibling := some n } := by
    rw [hres]
    show ((((Dom.mk _).updateAt c1 _).updateAt cur _).updateAt n _).nodes.get? c1 = _
    rw [Dom.get?_updateAt_ne _ _ _ _ (by omega), Dom.get?_updateAt_ne _ _ _ _ hcc1,
      Dom.get?_updateAt_self _ _ _ _ hd1c1]
  have hg_cur : (insertChar dom (cur :: rest) c).1.nodes.get? cur
      = some { curNode with lastChild := some n } := by
    rw [hres]
    show ((((Dom.mk _).updateAt c1 _).updateAt cur _).updateAt n _).nodes.get? cur = _
    rw [Dom.get?_updateAt_ne _ _ _ _ (by omega)]
    rw [Dom.get?_updateAt_self _ _ _ _ (by rw [Dom.get?_updateAt_ne _ _ _ _ (fun h => hcc1 h.symm), hd1cur])]
  have hg_n : (insertChar dom (cur :: rest) c).1.nodes.get? n
      = some { kind := .text (String.singleton c), parent := some cur } := by
    rw [hres]
    show ((((Dom.mk _).updateAt c1 _).updateAt cur _).updateAt n _).nodes.get? n = _
    rw [Dom.get?_updateAt_self _ _ _ _ (by
      rw [Dom.get?_updateAt_ne _ _ _ _ hnecur, Dom.get?_updateAt_ne _ _ _ _ hnec1, hd1n])]
  have hlen : (insertChar dom (cur :: rest) c).1.nodes.length = n + 1 := by
    rw [hres]
    show ((((Dom.mk _).updateAt c1 _).updateAt cur _).updateAt n _).nodes.length = _
    rw [Dom.length_updateAt, Dom.length_updateAt, Dom.length_updateAt]
    show (dom.nodes ++ _).length = _
    simp
  have hchain : childChain (insertChar dom (cur :: rest) c).1 cur = [c1, n] := by
    unfold childChain
    rw [hg_cur, hlen]
    show childChainGo (insertChar dom (cur :: rest) c).1 (n + 1 + 1) curNode.firstChild = [c1, n]
    rw [hfc]
    show (match (insertChar dom (cur :: rest) c).1.nodes.get? c1 with
      | none => []
      | some m => c1 :: childChainGo (insertChar dom (cur :: rest) c).1 (n + 1) m.nextSibling) = [c1, n]
    rw [hg_c1]
    show c1 :: childChainGo (insertChar dom (cur :: rest) c).1 (n + 1) (some n) = [c1, n]
    show c1 :: (match (insertChar dom (cur :: rest) c).1.nodes.get? n with
      | none => []
      | some m => n :: childChainGo (insertChar dom (cur :: rest) c).1 n m.nextSibling) = [c1, n]
    rw [hg_n]
    show c1 :: n :: childChainGo (insertChar dom (cur :: rest) c).1 n none = [c1, n]
    rw [childChainGo_none]
  refine ⟨by rw [hres], by rw [hg_c1]; rfl, ?_, hg_n, hchain, ?_⟩
  · rw [hg_cur]
    show some ((curNode.firstChild, some n)) = some (some c1, some n)
    rw [hfc]
  · intro c2 restC hold hne hlt hmem
    rw [hchain] at hmem
    rcases List.mem_cons.mp hmem with h | h
    · exact hne h
    · rcases List.mem_cons.mp h with h | h
      · omega
      · cases h

/-- Claim C9 witness: on the concrete arena whose document has the two
children paragraph and heading, inserting a character links the new text
node (index 3) as the sibling of the paragraph, and the heading (index 2)
drops out of the child chain. -/
theorem claim_C9_witness :
    (insertChar c9Dom [0] 'x').2 = [3, 0]
    ∧ ((insertChar c9Dom [0] 'x').1.nodes.get? 1).map (fun m => m.nextSibling) = some (some 3)
    ∧ childChain (insertChar c9Dom [0] 'x').1 0 = [1, 3]
    ∧ childChain c9Dom 0 = [1, 2]
    ∧ ¬ 2 ∈ childChain (insertChar c9Dom [0] 'x').1 0 :=
  have h := claim_C9_insert_char c9Dom [] 0 'x'
    { kind := .document, firstChild := some 1, lastChild := some 2 } 1
    (by decide) (by decide) (by decide) (by decide) (by decide) (by decide)
  ⟨h.1, h.2.1, h.2.2.2.2.1, by decide,
   h.2.2.2.2.2 2 [] (by decide) (by decide) (by decide)⟩

end SabaCore
